import Mathlib

/-!
Verification development for the DC resistivity 1D sounding notebook
(`notebooks/DC-1d-sounding-code.ipynb`).

The notebook is glue around the SimPEG forward-modeling library.  The user
parameters, the survey-building loop and the output-table cell are embedded
directly from the notebook source.  The library pieces the notebook calls
(`DCSimulation_1D`, `make_synthetic_data`, the electrode/layer constructors)
are not part of the repository; definitions for them are marked
`Modelled from the spec:` and follow the specification text.

Conventions: machine floats become exact numbers (ℚ for the concrete notebook
data and the constructors, ℝ for the analytic forward-simulation model);
fallible constructors return `Except`.
-/

deriving instance DecidableEq for Except

/-- Error taxonomy of the specification (section 7). -/
inductive DCError where
  | invalidModel
  | degenerateElectrode
deriving DecidableEq

/-! ## Concrete notebook user parameters (cells 4, 6, 10 of the notebook) -/

/-- Notebook cell 4: the AB/2 values for the source electrodes. -/
def half_AB_separation : List ℚ :=
  [5, 10, 20, 30, 40,
   40, 50, 60, 70, 80, 90, 100,
   100, 120, 140, 160, 180, 200,
   200, 220, 240, 260, 280, 300,
   300, 320, 350, 370, 400]

/-- Notebook cell 4: the MN/2 values for the receiver electrodes. -/
def half_MN_separation : List ℚ :=
  [1, 1, 1, 1, 1,
   5, 5, 5, 5, 5, 5, 5,
   10, 10, 10, 10, 10, 10,
   20, 20, 20, 20, 20, 20,
   30, 30, 30, 30, 30]

/-- Notebook cell 6: a resistivity (Ohm meters) for each layer. -/
def resistivity_model : List ℚ := [400, 50, 400, 200, 2000, 20, 2000]

/-- Notebook cell 6: the layer thicknesses (the last layer is infinitely thick). -/
def layer_thicknesses : List ℚ := [8, 8, 4, 10, 10, 10]

/-- Notebook cell 10: whether noise is added to the simulated data. -/
def add_noise : Bool := false

/-- Notebook cell 10: the amount of noise the user asks for (5 percent). -/
def standard_deviation : ℚ := 0.05

/-! ## Electrode geometry and validated constructors (ℚ level) -/

/-- An electrode position, a 3D coordinate as in the notebook's
`np.r_[x, 0., 0.]` arrays. -/
abbrev QPoint := ℚ × ℚ × ℚ

/-- One survey configuration: source dipole electrodes A, B and receiver
dipole electrodes M, N. -/
structure QConfig where
  A : QPoint
  B : QPoint
  M : QPoint
  N : QPoint
deriving DecidableEq

/-- Modelled from the spec: the layer stack of section 4.1, an ordered
resistivity list together with the stored thicknesses (one per layer except
the semi-infinite bottom layer). -/
structure LayerStack where
  res : List ℚ
  thick : List ℚ
deriving DecidableEq

/-- Modelled from the spec: the layer-stack constructor of section 4.1, whose
body lives in the library (the notebook only supplies the two arrays).  It
rejects the input with `InvalidModelError` when the thicknesses list length
is not one less than the resistivity list length, or when any resistivity or
stored thickness is nonpositive. -/
def mkLayerStack (res thick : List ℚ) : Except DCError LayerStack :=
  if thick.length + 1 ≠ res.length then Except.error DCError.invalidModel
  else if res.any (fun r => decide (r ≤ 0)) || thick.any (fun h => decide (h ≤ 0)) then
    Except.error DCError.invalidModel
  else Except.ok ⟨res, thick⟩

/-- Modelled from the spec: the survey/electrode-array constructor of
section 4.2, whose body lives in the library (`dc.sources.Dipole`,
`dc.receivers.Dipole`).  It rejects a configuration with
`DegenerateElectrodeError` when two same-role electrodes coincide exactly. -/
def mkSurveyConfig (A B M N : QPoint) : Except DCError QConfig :=
  if A = B then Except.error DCError.degenerateElectrode
  else if M = N then Except.error DCError.degenerateElectrode
  else Except.ok ⟨A, B, M, N⟩

/-- Notebook cell 12: the survey-building loop.  For each index the source
electrodes sit at x = ∓AB/2 and the receiver electrodes at x = ∓MN/2, all on
the surface line y = z = 0. -/
def surveyConfigsQ : List QConfig :=
  (half_AB_separation.zip half_MN_separation).map
    (fun p => ⟨(-p.1, 0, 0), (p.1, 0, 0), (-p.2, 0, 0), (p.2, 0, 0)⟩)

/-! ## Spec-modelled forward-simulation core (ℝ level)

The kernel evaluator, Hankel transform engine and forward orchestrator of
spec sections 4.3 to 4.5 are library code (`DCSimulation_1D`), not part of
the repository; the definitions below follow the specification text. -/

/-- An electrode position over the reals. -/
abbrev Point := ℝ × ℝ × ℝ

/-- A survey configuration over the reals. -/
structure SurveyConfig where
  A : Point
  B : Point
  M : Point
  N : Point

/-- Euclidean distance between two electrode positions. -/
noncomputable def edist3 (p q : Point) : ℝ :=
  Real.sqrt ((p.1 - q.1) ^ 2 + (p.2.1 - q.2.1) ^ 2 + (p.2.2 - q.2.2) ^ 2)

/-- Modelled from the spec: one step of the bottom-up surface-impedance
recursion of section 4.3 — the new term is a rational function of the
previous term `T`, the layer resistivity `ρ` and `t = tanh(λ·thickness)`. -/
noncomputable def layerCombine (T ρ t : ℝ) : ℝ := (T + ρ * t) / (1 + T * t / ρ)

/-- Modelled from the spec: the resistivity-transform kernel `K(λ)` of
section 4.3.  The term is initialized with the resistivity of the
semi-infinite bottom layer and the layers above it are combined moving
upward from the second-to-last layer to the top. -/
noncomputable def kernelK (res thick : List ℝ) (lam : ℝ) : ℝ :=
  (res.dropLast.zip thick).foldr
    (fun p T => layerCombine T p.1 (Real.tanh (lam * p.2)))
    (res.getLast?.getD 0)

/-- The sum of the digital Hankel filter weights. -/
def weightSum (flt : List (ℝ × ℝ)) : ℝ := (flt.map (fun p => p.2)).sum

/-- Modelled from the spec: the Hankel transform engine of section 4.4 — the
potential integral evaluated through a fixed digital filter of abscissae and
weights, `potential(r) ≈ (1/r) · Σ w_i · K(λ_i / r)`. -/
noncomputable def hankelPotential (flt : List (ℝ × ℝ)) (K : ℝ → ℝ) (r : ℝ) : ℝ :=
  (1 / r) * (flt.map (fun p => p.2 * K (p.1 / r))).sum

/-- Modelled from the spec: the potential a unit point source produces at
offset `r`, with the point-source prefactor `1/(2π)` of section 4.5 (the
resistivity dependence is carried by the kernel). -/
noncomputable def electrodePotential (flt : List (ℝ × ℝ)) (res thick : List ℝ) (r : ℝ) : ℝ :=
  (1 / (2 * Real.pi)) * hankelPotential flt (kernelK res thick) r

/-- The signed sum of inverse electrode separations entering the geometric
factor of a dipole-dipole array. -/
noncomputable def geomSum (c : SurveyConfig) : ℝ :=
  1 / edist3 c.A c.M - 1 / edist3 c.B c.M - 1 / edist3 c.A c.N + 1 / edist3 c.B c.N

/-- Modelled from the spec: the geometric factor of section 4.5 step 3,
the standard closed form `2π / (1/AM − 1/BM − 1/AN + 1/BN)`. -/
noncomputable def geometricFactor (c : SurveyConfig) : ℝ := 2 * Real.pi / geomSum c

/-- Modelled from the spec: section 4.5 steps 1 and 2 — superpose the four
electrode-pair potential contributions with the source polarities (A carries
+I, B carries −I) and form the measured voltage `V_M − V_N`. -/
noncomputable def measuredVoltage (flt : List (ℝ × ℝ)) (res thick : List ℝ)
    (c : SurveyConfig) (I : ℝ) : ℝ :=
  I * (electrodePotential flt res thick (edist3 c.A c.M)
     - electrodePotential flt res thick (edist3 c.B c.M)
     - electrodePotential flt res thick (edist3 c.A c.N)
     + electrodePotential flt res thick (edist3 c.B c.N))

/-- Modelled from the spec: section 4.5 step 4 — apparent resistivity is
`(V / I) · G`. -/
noncomputable def apparentResistivity (flt : List (ℝ × ℝ)) (res thick : List ℝ)
    (c : SurveyConfig) (I : ℝ) : ℝ :=
  (measuredVoltage flt res thick c I / I) * geometricFactor c

/-- Exchange the source dipole (A, B) with the receiver dipole (M, N). -/
def swapRoles (c : SurveyConfig) : SurveyConfig := ⟨c.M, c.N, c.A, c.B⟩

/-- Modelled from the spec: the orchestrator assembles one apparent
resistivity per configuration, preserving survey order (unit current). -/
noncomputable def dpredList (flt : List (ℝ × ℝ)) (res thick : List ℝ)
    (configs : List SurveyConfig) : List ℝ :=
  configs.map (fun c => apparentResistivity flt res thick c 1)

/-! ## Spec-modelled noise model, and the notebook's output table -/

/-- The keyword names under which the notebook and the library exchange the
noise level.  `standard_deviation` is the parameter the noise model reads;
`standard_devation` (sic) is the misspelled keyword the notebook cell 16
actually passes; any other keyword is collected by the catch-all. -/
inductive Kw where
  | standard_deviation
  | standard_devation
  | other
deriving DecidableEq

/-- Look a keyword up in a keyword-argument list. -/
def kwLookup (k : Kw) : List (Kw × ℝ) → Option ℝ
  | [] => none
  | (k2, v) :: rest => if k2 = k then some v else kwLookup k rest

/-- Modelled from the spec: the noise model's own default relative standard
deviation, used when the caller does not pass one under the recognized
keyword (the library default, 5 percent). -/
noncomputable def defaultStd : ℝ := 0.05

/-- The relative standard deviation the noise model actually uses: the value
passed under the recognized keyword, or its own default. -/
noncomputable def sigmaEff (kwargs : List (Kw × ℝ)) : ℝ :=
  (kwLookup Kw.standard_deviation kwargs).getD defaultStd

/-- Modelled from the spec: a pseudorandom draw stream fully determined by
the explicit seed (section 4.6).  The exact values are a stand-in — only
seed-determinism matters to the claims. -/
noncomputable def prngStream (s : ℕ) : ℕ → ℝ := fun i => ((s + i + 1 : ℕ) : ℝ)

/-- Modelled from the spec: the noise draws come from the seeded generator
when a seed is given, and from a process-level entropy source otherwise. -/
noncomputable def zstream (seed : Option ℕ) (entropy : ℕ → ℝ) : ℕ → ℝ :=
  match seed with
  | some s => prngStream s
  | none => entropy

/-- Perturb each datum `v` at stream index `j, j+1, …` into `v · (1 + σ·ε)`
(spec section 4.6). -/
noncomputable def perturbFrom (σ : ℝ) (z : ℕ → ℝ) : ℕ → List ℝ → List ℝ
  | _, [] => []
  | j, v :: vs => v * (1 + σ * z j) :: perturbFrom σ z (j + 1) vs

/-- The data object `make_synthetic_data` returns: observed values and the
per-datum standard deviation. -/
structure DataObj where
  dobs : List ℝ
  uncertainty : List ℝ

/-- Modelled from the spec: `make_synthetic_data` (notebook cell 16 calls it;
its body lives in the library).  With `add_noise` on it perturbs each
predicted value by `value · (1 + σ·ε)` and attaches `uncertainty = σ·|value|`
per datum; with the flag off it returns the predictions unperturbed.  The
noise level is read only from the recognized keyword `standard_deviation`
(unrecognized keywords are collected by the catch-all and ignored), the draws
from the seeded stream when a seed is given and from process entropy
otherwise. -/
noncomputable def make_synthetic_data (dpred : List ℝ) (kwargs : List (Kw × ℝ))
    (noiseFlag : Bool) (seed : Option ℕ) (entropy : ℕ → ℝ) : DataObj :=
  if noiseFlag then
    ⟨perturbFrom (sigmaEff kwargs) (zstream seed entropy) 0 dpred,
     dpred.map (fun v => sigmaEff kwargs * |v|)⟩
  else
    ⟨dpred, dpred.map (fun v => sigmaEff kwargs * |v|)⟩

/-- The output table columns of notebook cell 17. -/
inductive Column where
  | ab2
  | mn2
  | appRes
  | uncertainty
deriving DecidableEq

/-- Notebook cell 17: `columns = ['AB/2 (m)','MN/2 (m)','App. Res. (Ohm m)']`,
with `'uncertainty (Ohm m)'` appended when `add_noise` is set. -/
def columnsFor (noiseFlag : Bool) : List Column :=
  [Column.ab2, Column.mn2, Column.appRes] ++ (if noiseFlag then [Column.uncertainty] else [])

/-- Notebook cell 17: `out_dat = np.c_[half_AB_separation, half_MN_separation,
data_obj.dobs]`, with `data_obj.uncertainty` stacked on as a fourth column
when `add_noise` is set.  Row i collects the i-th entry of each column. -/
def out_dat (ab mn dobs unc : List ℝ) (noiseFlag : Bool) : List (List ℝ) :=
  let base := (ab.zip (mn.zip dobs)).map (fun p => [p.1, p.2.1, p.2.2])
  if noiseFlag then (base.zip unc).map (fun p => p.1 ++ [p.2]) else base

/-- Prepend the running row index to each row (what pandas writes when the
index column is requested). -/
def withIndexFrom : ℕ → List (List ℝ) → List (List ℝ)
  | _, [] => []
  | i, r :: rs => ((i : ℝ) :: r) :: withIndexFrom (i + 1) rs

/-- Notebook cell 17: `df.to_csv(filename, index=False)` — the written data
rows, with the index column prepended only when `index` is set. -/
def to_csv (rows : List (List ℝ)) (index : Bool) : List (List ℝ) :=
  if index then withIndexFrom 0 rows else rows

/-- Notebook cells 16 and 17 composed: predict the data for the given survey
and model, run them through `make_synthetic_data`, column-stack the table and
write it without an index column. -/
noncomputable def pipelineRows (flt : List (ℝ × ℝ)) (res thick : List ℝ)
    (configs : List SurveyConfig) (ab mn : List ℝ) (kwargs : List (Kw × ℝ))
    (noiseFlag : Bool) (seed : Option ℕ) (entropy : ℕ → ℝ) : List (List ℝ) :=
  let d := make_synthetic_data (dpredList flt res thick configs) kwargs noiseFlag seed entropy
  to_csv (out_dat ab mn d.dobs d.uncertainty noiseFlag) false

/-- Cast a rational electrode position to the reals. -/
noncomputable def castPoint (p : QPoint) : Point := ((p.1 : ℝ), (p.2.1 : ℝ), (p.2.2 : ℝ))

/-- Cast a rational survey configuration to the reals. -/
noncomputable def castConfig (c : QConfig) : SurveyConfig :=
  ⟨castPoint c.A, castPoint c.B, castPoint c.M, castPoint c.N⟩

/-- The notebook's AB/2 values over the reals. -/
noncomputable def half_ABR : List ℝ := half_AB_separation.map (fun q => (q : ℝ))

/-- The notebook's MN/2 values over the reals. -/
noncomputable def half_MNR : List ℝ := half_MN_separation.map (fun q => (q : ℝ))

/-- The notebook's resistivity model over the reals. -/
noncomputable def rmodelR : List ℝ := resistivity_model.map (fun q => (q : ℝ))

/-- The notebook's layer thicknesses over the reals. -/
noncomputable def thickR : List ℝ := layer_thicknesses.map (fun q => (q : ℝ))

/-- The notebook's survey over the reals. -/
noncomputable def surveyConfigsR : List SurveyConfig := surveyConfigsQ.map castConfig

/-- The notebook run end-to-end, parameterized by the library's Hankel filter,
the user noise parameters of cell 10, the seed and the process entropy.  The
noise level is forwarded exactly as cell 16 does: under the misspelled
keyword `standard_devation`. -/
noncomputable def notebookRun (flt : List (ℝ × ℝ)) (σuser : ℝ) (noiseFlag : Bool)
    (seed : Option ℕ) (entropy : ℕ → ℝ) : List (List ℝ) × List Column :=
  (pipelineRows flt rmodelR thickR surveyConfigsR half_ABR half_MNR
      [(Kw.standard_devation, σuser)] noiseFlag seed entropy,
   columnsFor noiseFlag)

/-! ## Helper lemmas -/

theorem anyNonpos_iff (l : List ℚ) :
    (l.any (fun r => decide (r ≤ 0)) = true) ↔ ¬ (∀ r ∈ l, 0 < r) := by
  rw [List.any_eq_true]
  push_neg
  constructor
  · rintro ⟨x, hx, hle⟩
    exact ⟨x, hx, not_lt.mp (by simpa using hle)⟩
  · rintro ⟨x, hx, hle⟩
    exact ⟨x, hx, by simpa using hle⟩

/-! ## Claim theorems -/

/-- Claim C6: layer-stack construction fails with `InvalidModelError` — before
any computation — exactly when the thicknesses list length is not one less
than the resistivity list length, or when any resistivity or stored thickness
is nonpositive; otherwise construction succeeds with at least one layer. -/
theorem C6_layer_stack_validation (res thick : List ℚ) :
    (mkLayerStack res thick = Except.error DCError.invalidModel ↔
      ¬ (thick.length + 1 = res.length ∧ (∀ r ∈ res, 0 < r) ∧ (∀ h ∈ thick, 0 < h))) ∧
    (mkLayerStack res thick = Except.ok ⟨res, thick⟩ ↔
      (thick.length + 1 = res.length ∧ (∀ r ∈ res, 0 < r) ∧ (∀ h ∈ thick, 0 < h))) ∧
    (∀ s, mkLayerStack res thick = Except.ok s → 1 ≤ s.res.length) := by
  unfold mkLayerStack
  by_cases h1 : thick.length + 1 = res.length
  · by_cases h2 : (res.any (fun r => decide (r ≤ 0)) || thick.any (fun h => decide (h ≤ 0))) = true
    · have hneg : ¬ (thick.length + 1 = res.length ∧ (∀ r ∈ res, 0 < r) ∧ (∀ h ∈ thick, 0 < h)) := by
        intro hc
        rcases Bool.or_eq_true _ _ |>.mp h2 with ha | ha
        · exact (anyNonpos_iff res).mp ha hc.2.1
        · exact (anyNonpos_iff thick).mp ha hc.2.2
      rw [if_neg (not_not_intro h1), if_pos h2]
      exact ⟨iff_of_true rfl hneg, iff_of_false (by simp) hneg, by simp⟩
    · have hra : ∀ r ∈ res, 0 < r := by
        by_contra hc
        rw [Bool.or_eq_true, not_or] at h2
        exact h2.1 ((anyNonpos_iff res).mpr hc)
      have hta : ∀ h ∈ thick, 0 < h := by
        by_contra hc
        rw [Bool.or_eq_true, not_or] at h2
        exact h2.2 ((anyNonpos_iff thick).mpr hc)
      rw [if_neg (not_not_intro h1), if_neg h2]
      refine ⟨iff_of_false (by simp) (by intro hc; exact hc ⟨h1, hra, hta⟩),
              iff_of_true rfl ⟨h1, hra, hta⟩, ?_⟩
      intro s hs
      have hseq : s = LayerStack.mk res thick := (Except.ok.inj hs).symm
      rw [hseq]
      simpa using by omega
  · rw [if_pos h1]
    refine ⟨iff_of_true rfl (by intro hc; exact h1 hc.1),
            iff_of_false (by simp) (by intro hc; exact h1 hc.1), by simp⟩

/-- Witness for C6 at concrete inputs: a valid two-layer stack is accepted and
a stack whose thicknesses list is not one element shorter is rejected. -/
theorem C6_layer_stack_validation_witness :
    mkLayerStack [400, 50] [8] = Except.ok ⟨[400, 50], [8]⟩ ∧
    mkLayerStack [400] [8] = Except.error DCError.invalidModel :=
  ⟨(C6_layer_stack_validation [400, 50] [8]).2.1.mpr (by refine ⟨by decide, ?_, ?_⟩ <;> decide),
   (C6_layer_stack_validation [400] [8]).1.mpr (by decide)⟩

/-- Claim C7: survey construction fails with `DegenerateElectrodeError`
exactly when two same-role electrodes coincide (A = B or M = N) — in
particular an identical A, B pair is rejected outright, so no apparent
resistivity is ever computed for it — and accepts the configuration
otherwise. -/
theorem C7_degenerate_electrode (A B M N : QPoint) :
    (mkSurveyConfig A B M N = Except.error DCError.degenerateElectrode ↔ (A = B ∨ M = N)) ∧
    (mkSurveyConfig A B M N = Except.ok ⟨A, B, M, N⟩ ↔ (A ≠ B ∧ M ≠ N)) := by
  unfold mkSurveyConfig
  by_cases hab : A = B
  · rw [if_pos hab]
    exact ⟨iff_of_true rfl (Or.inl hab), iff_of_false (by simp) (fun hc => hc.1 hab)⟩
  · rw [if_neg hab]
    by_cases hmn : M = N
    · rw [if_pos hmn]
      exact ⟨iff_of_true rfl (Or.inr hmn), iff_of_false (by simp) (fun hc => hc.2 hmn)⟩
    · rw [if_neg hmn]
      refine ⟨iff_of_false (by simp) ?_, iff_of_true rfl ⟨hab, hmn⟩⟩
      rintro (h | h)
      · exact hab h
      · exact hmn h

/-- Witness for C7 at concrete inputs: coincident source electrodes are
rejected with the degenerate-electrode error, distinct ones are accepted. -/
theorem C7_degenerate_electrode_witness :
    mkSurveyConfig (0, 0, 0) (0, 0, 0) (-1, 0, 0) (1, 0, 0) =
      Except.error DCError.degenerateElectrode ∧
    mkSurveyConfig (-2, 0, 0) (2, 0, 0) (-1, 0, 0) (1, 0, 0) =
      Except.ok ⟨(-2, 0, 0), (2, 0, 0), (-1, 0, 0), (1, 0, 0)⟩ :=
  ⟨(C7_degenerate_electrode _ _ _ _).1.mpr (Or.inl rfl),
   (C7_degenerate_electrode _ _ _ _).2.mpr ⟨by decide, by decide⟩⟩

/-- Claim C9: in the survey the notebook constructs, every one of the 29
configurations places A at (−AB/2, 0, 0), B at (AB/2, 0, 0), M at
(−MN/2, 0, 0) and N at (MN/2, 0, 0) with 0 < MN/2 < AB/2 at every index, so
A differs from B and M differs from N in every configuration and the
degenerate-electrode check accepts every configuration of this input. -/
theorem C9_survey_geometry :
    surveyConfigsQ.length = 29 ∧
    ∀ i : Fin 29,
      0 < half_MN_separation.getD i.val 0 ∧
      half_MN_separation.getD i.val 0 < half_AB_separation.getD i.val 0 ∧
      surveyConfigsQ.getD i.val ⟨(0,0,0),(0,0,0),(0,0,0),(0,0,0)⟩ =
        ⟨(-(half_AB_separation.getD i.val 0), 0, 0), (half_AB_separation.getD i.val 0, 0, 0),
         (-(half_MN_separation.getD i.val 0), 0, 0), (half_MN_separation.getD i.val 0, 0, 0)⟩ ∧
      (surveyConfigsQ.getD i.val ⟨(0,0,0),(0,0,0),(0,0,0),(0,0,0)⟩).A ≠
        (surveyConfigsQ.getD i.val ⟨(0,0,0),(0,0,0),(0,0,0),(0,0,0)⟩).B ∧
      (surveyConfigsQ.getD i.val ⟨(0,0,0),(0,0,0),(0,0,0),(0,0,0)⟩).M ≠
        (surveyConfigsQ.getD i.val ⟨(0,0,0),(0,0,0),(0,0,0),(0,0,0)⟩).N ∧
      mkSurveyConfig (surveyConfigsQ.getD i.val ⟨(0,0,0),(0,0,0),(0,0,0),(0,0,0)⟩).A
          (surveyConfigsQ.getD i.val ⟨(0,0,0),(0,0,0),(0,0,0),(0,0,0)⟩).B
          (surveyConfigsQ.getD i.val ⟨(0,0,0),(0,0,0),(0,0,0),(0,0,0)⟩).M
          (surveyConfigsQ.getD i.val ⟨(0,0,0),(0,0,0),(0,0,0),(0,0,0)⟩).N =
        Except.ok (surveyConfigsQ.getD i.val ⟨(0,0,0),(0,0,0),(0,0,0),(0,0,0)⟩) := by
  constructor
  · decide
  · decide

theorem sigmaEff_typo (v : ℝ) : sigmaEff [(Kw.standard_devation, v)] = defaultStd := rfl

/-- Claim C4: the pipeline output does not depend on the value assigned to
the user parameter `standard_deviation` — for any two values, with all other
inputs equal, the run produces identical output, because the notebook
forwards the value only under the misspelled keyword `standard_devation`,
which the noise model does not read. -/
theorem C4_standard_deviation_ignored (flt : List (ℝ × ℝ)) (σ1 σ2 : ℝ) (noiseFlag : Bool)
    (seed : Option ℕ) (entropy : ℕ → ℝ) :
    notebookRun flt σ1 noiseFlag seed entropy = notebookRun flt σ2 noiseFlag seed entropy := by
  unfold notebookRun pipelineRows make_synthetic_data
  rw [sigmaEff_typo σ1, sigmaEff_typo σ2]

/-- Claim C5: with a fixed explicit seed the noise model is fully
reproducible (the process entropy source does not enter at all, so two runs
are bit-identical); with the noise flag off the values are the unchanged
forward predictions; and absent a seed the output depends on the
process-level entropy source (two sources can give different output). -/
theorem C5_seed_reproducibility (dp : List ℝ) (kwargs : List (Kw × ℝ)) (noiseFlag : Bool)
    (s : ℕ) (e1 e2 : ℕ → ℝ) :
    make_synthetic_data dp kwargs noiseFlag (some s) e1 =
      make_synthetic_data dp kwargs noiseFlag (some s) e2 ∧
    (make_synthetic_data dp kwargs false (some s) e1).dobs = dp ∧
    (∃ f1 f2 : ℕ → ℝ, make_synthetic_data [1] [] true none f1 ≠
      make_synthetic_data [1] [] true none f2) := by
  refine ⟨rfl, rfl, fun _ => (0 : ℝ), fun _ => (1 : ℝ), ?_⟩
  intro h
  have hd := congrArg DataObj.dobs h
  simp [make_synthetic_data, perturbFrom, sigmaEff, kwLookup, defaultStd, zstream] at hd
  norm_num at hd

/-- Claim C3 is a code bug: at the failing input `add_noise = True`,
`standard_deviation = 0`, the pipeline does not leave the data unperturbed —
the user value is dropped by the misspelled keyword, the library default
relative error of 5 percent is applied instead (a noiseless datum 100
becomes 105 under a unit draw), and the uncertainty column is emitted. -/
theorem C3_sigma_zero_not_disabling :
    (make_synthetic_data [100] [(Kw.standard_devation, 0)] true (some 0) (fun _ => 0)).dobs
      = [105] ∧
    columnsFor true = [Column.ab2, Column.mn2, Column.appRes, Column.uncertainty] := by
  constructor
  · simp [make_synthetic_data, perturbFrom, sigmaEff, kwLookup, defaultStd, zstream, prngStream]
    norm_num
  · rfl

/-- Claim C10: the two separation arrays have equal length 29, the survey
has exactly 29 configurations, the written CSV has exactly 29 data rows of
exactly the 3 data columns each (no index column, and no uncertainty column
since the notebook sets `add_noise = False`), and the resistivity model has
exactly one more entry (7) than the thicknesses array (6). -/
theorem C10_dimension_consistency (flt : List (ℝ × ℝ)) (seed : Option ℕ) (entropy : ℕ → ℝ) :
    half_AB_separation.length = 29 ∧
    half_MN_separation.length = 29 ∧
    surveyConfigsQ.length = 29 ∧
    resistivity_model.length = 7 ∧
    layer_thicknesses.length = 6 ∧
    resistivity_model.length = layer_thicknesses.length + 1 ∧
    (notebookRun flt ((standard_deviation : ℚ) : ℝ) add_noise seed entropy).1.length = 29 ∧
    (notebookRun flt ((standard_deviation : ℚ) : ℝ) add_noise seed entropy).1.map List.length
      = List.replicate 29 3 := by
  have hab : half_ABR.length = 29 := by unfold half_ABR; rw [List.length_map]; decide
  have hmn : half_MNR.length = 29 := by unfold half_MNR; rw [List.length_map]; decide
  have hcfg : surveyConfigsR.length = 29 := by unfold surveyConfigsR; rw [List.length_map]; decide
  have hd : (dpredList flt rmodelR thickR surveyConfigsR).length = 29 := by
    unfold dpredList; rw [List.length_map]; exact hcfg
  have hbase : (notebookRun flt ((standard_deviation : ℚ) : ℝ) add_noise seed entropy).1 =
      (half_ABR.zip (half_MNR.zip (dpredList flt rmodelR thickR surveyConfigsR))).map
        (fun p => [p.1, p.2.1, p.2.2]) := by
    simp only [notebookRun, pipelineRows, add_noise, make_synthetic_data, to_csv, out_dat,
      Bool.false_eq_true, if_false]
  refine ⟨by decide, by decide, by decide, by decide, by decide, by decide, ?_, ?_⟩
  · rw [hbase, List.length_map, List.length_zip, List.length_zip, hab, hmn, hd]
    simp
  · rw [hbase, List.map_map,
      show (List.length ∘ fun p : ℝ × ℝ × ℝ => [p.1, p.2.1, p.2.2]) = Function.const _ 3 from rfl,
      List.map_const, List.length_zip, List.length_zip, hab, hmn, hd]
    simp

theorem kernelK_single (ρ : ℝ) (thick : List ℝ) (lam : ℝ) : kernelK [ρ] thick lam = ρ := by
  simp [kernelK]

theorem sum_map_snd_mul (flt : List (ℝ × ℝ)) (c : ℝ) :
    (flt.map (fun p => p.2 * c)).sum = weightSum flt * c := by
  induction flt with
  | nil => simp [weightSum]
  | cons p l ih =>
    simp only [List.map_cons, List.sum_cons, ih, weightSum]
    ring

theorem edist3_symm (p q : Point) : edist3 p q = edist3 q p := by
  unfold edist3
  congr 1
  ring

/-- Claim C1: for a one-layer model (homogeneous half-space) the forward
simulation's apparent resistivity equals the layer's true resistivity for
every survey configuration — every electrode placement and any thicknesses
input — within the filter's relative error floor of 1e-6 (for a filter whose
weights integrate the constant kernel to within 1e-6 of exactly, and a
nondegenerate geometric factor). -/
theorem C1_homogeneous_half_space (flt : List (ℝ × ℝ)) (ρ : ℝ) (thick : List ℝ)
    (c : SurveyConfig) (hρ : 0 < ρ) (hW : |weightSum flt - 1| ≤ 1 / 1000000)
    (hg : geomSum c ≠ 0) :
    |apparentResistivity flt [ρ] thick c 1 - ρ| ≤ (1 / 1000000) * ρ := by
  have hπ : (2 * Real.pi) ≠ 0 := mul_ne_zero two_ne_zero Real.pi_ne_zero
  have hval : apparentResistivity flt [ρ] thick c 1 = ρ * weightSum flt := by
    unfold apparentResistivity measuredVoltage geometricFactor electrodePotential hankelPotential
    simp only [kernelK_single, sum_map_snd_mul]
    unfold geomSum at hg ⊢
    set u1 := 1 / edist3 c.A c.M with hu1
    set u2 := 1 / edist3 c.B c.M with hu2
    set u3 := 1 / edist3 c.A c.N with hu3
    set u4 := 1 / edist3 c.B c.N with hu4
    field_simp
    ring
  rw [hval]
  have habs : |ρ * weightSum flt - ρ| = ρ * |weightSum flt - 1| := by
    rw [show ρ * weightSum flt - ρ = ρ * (weightSum flt - 1) by ring, abs_mul,
      abs_of_pos hρ]
  rw [habs, mul_comm (1 / 1000000 : ℝ) ρ]
  exact mul_le_mul_of_nonneg_left hW (le_of_lt hρ)

/-- Witness for C1 at a concrete input: a 400 Ohm-meter half-space, a
one-point exact filter and a Schlumberger-like collinear configuration. -/
theorem C1_homogeneous_half_space_witness :
    (0 : ℝ) < 400 ∧
    |weightSum [((1 : ℝ), (1 : ℝ))] - 1| ≤ 1 / 1000000 ∧
    geomSum ⟨((-2 : ℝ), 0, 0), ((2 : ℝ), 0, 0), ((-1 : ℝ), 0, 0), ((1 : ℝ), 0, 0)⟩ ≠ 0 ∧
    |apparentResistivity [((1 : ℝ), (1 : ℝ))] [400] []
        ⟨((-2 : ℝ), 0, 0), ((2 : ℝ), 0, 0), ((-1 : ℝ), 0, 0), ((1 : ℝ), 0, 0)⟩ 1 - 400|
      ≤ (1 / 1000000) * 400 := by
  have h1 : (0 : ℝ) < 400 := by norm_num
  have h2 : |weightSum [((1 : ℝ), (1 : ℝ))] - 1| ≤ 1 / 1000000 := by
    simp [weightSum]
  have e1 : edist3 ((-2 : ℝ), 0, 0) ((-1 : ℝ), 0, 0) = 1 := by
    simp only [edist3]
    norm_num
  have e2 : edist3 ((2 : ℝ), 0, 0) ((-1 : ℝ), 0, 0) = 3 := by
    simp only [edist3]
    rw [show ((2 : ℝ) - -1) ^ 2 + ((0 : ℝ) - 0) ^ 2 + ((0 : ℝ) - 0) ^ 2 = 3 ^ 2 by norm_num]
    exact Real.sqrt_sq (by norm_num)
  have e3 : edist3 ((-2 : ℝ), 0, 0) ((1 : ℝ), 0, 0) = 3 := by
    simp only [edist3]
    rw [show ((-2 : ℝ) - 1) ^ 2 + ((0 : ℝ) - 0) ^ 2 + ((0 : ℝ) - 0) ^ 2 = 3 ^ 2 by norm_num]
    exact Real.sqrt_sq (by norm_num)
  have e4 : edist3 ((2 : ℝ), 0, 0) ((1 : ℝ), 0, 0) = 1 := by
    simp only [edist3]
    norm_num
  have h3 : geomSum ⟨((-2 : ℝ), 0, 0), ((2 : ℝ), 0, 0), ((-1 : ℝ), 0, 0), ((1 : ℝ), 0, 0)⟩ ≠ 0 := by
    simp only [geomSum, e1, e2, e3, e4]
    norm_num
  exact ⟨h1, h2, h3, C1_homogeneous_half_space [((1 : ℝ), (1 : ℝ))] 400 [] _ h1 h2 h3⟩

/-- Claim C8: reciprocity — for every layered model, filter, current and
configuration, exchanging the source dipole (A, B) with the receiver dipole
(M, N) yields exactly the same apparent resistivity. -/
theorem C8_reciprocity (flt : List (ℝ × ℝ)) (res thick : List ℝ) (c : SurveyConfig) (I : ℝ) :
    apparentResistivity flt res thick (swapRoles c) I = apparentResistivity flt res thick c I := by
  simp only [apparentResistivity, measuredVoltage, geometricFactor, geomSum, swapRoles]
  rw [edist3_symm c.M c.A, edist3_symm c.N c.A, edist3_symm c.M c.B, edist3_symm c.N c.B]
  ring

theorem getElem?_zipPair {α β : Type} (l1 : List α) (l2 : List β) (i : ℕ) :
    (l1.zip l2)[i]? = (l1[i]?).bind (fun a => (l2[i]?).map (fun b => (a, b))) := by
  induction l1 generalizing l2 i with
  | nil => simp
  | cons a l ih =>
    cases l2 with
    | nil => simp
    | cons b l2 =>
      cases i with
      | zero => simp
      | succ n => simpa using ih l2 n

theorem perturbFrom_length (σ : ℝ) (z : ℕ → ℝ) (j : ℕ) (l : List ℝ) :
    (perturbFrom σ z j l).length = l.length := by
  induction l generalizing j with
  | nil => rfl
  | cons v vs ih => simp [perturbFrom, ih]

theorem getElem?_perturbFrom (σ : ℝ) (z : ℕ → ℝ) (j : ℕ) (l : List ℝ) (i : ℕ) :
    (perturbFrom σ z j l)[i]? = (l[i]?).map (fun v => v * (1 + σ * z (j + i))) := by
  induction l generalizing j i with
  | nil => simp [perturbFrom]
  | cons v vs ih =>
    cases i with
    | zero => simp [perturbFrom]
    | succ n =>
      simp only [perturbFrom, List.getElem?_cons_succ, ih]
      have h : j + 1 + n = j + (n + 1) := by omega
      rw [h]

theorem getElem?_perturbFrom_zero (σ : ℝ) (z : ℕ → ℝ) (l : List ℝ) (i : ℕ) :
    (perturbFrom σ z 0 l)[i]? = (l[i]?).map (fun v => v * (1 + σ * z i)) := by
  rw [getElem?_perturbFrom]
  simp

/-- Claim C2: for every survey and model the emitted output table has
columns AB/2, MN/2, apparent resistivity — plus an appended uncertainty
column exactly when noise is enabled — and its row order equals the input
survey-configuration order end-to-end: row i holds the AB/2 and MN/2 entries
of index i and the (optionally perturbed) apparent resistivity of
configuration i, with its uncertainty when noise is on. -/
theorem C2_table_columns_row_order (flt : List (ℝ × ℝ)) (res thick : List ℝ)
    (configs : List SurveyConfig) (ab mn : List ℝ) (kwargs : List (Kw × ℝ))
    (noiseFlag : Bool) (seed : Option ℕ) (entropy : ℕ → ℝ) :
    columnsFor noiseFlag =
      [Column.ab2, Column.mn2, Column.appRes] ++ (if noiseFlag then [Column.uncertainty] else []) ∧
    (Column.uncertainty ∈ columnsFor noiseFlag ↔ noiseFlag = true) ∧
    (pipelineRows flt res thick configs ab mn kwargs noiseFlag seed entropy).length =
      min ab.length (min mn.length configs.length) ∧
    ∀ i : ℕ,
      (pipelineRows flt res thick configs ab mn kwargs noiseFlag seed entropy)[i]? =
        (ab[i]?).bind (fun a => (mn[i]?).bind (fun b => (configs[i]?).map (fun c =>
          if noiseFlag then
            [a, b,
             apparentResistivity flt res thick c 1 * (1 + sigmaEff kwargs * zstream seed entropy i),
             sigmaEff kwargs * |apparentResistivity flt res thick c 1|]
          else [a, b, apparentResistivity flt res thick c 1]))) := by
  refine ⟨rfl, by cases noiseFlag <;> simp [columnsFor], ?_, ?_⟩
  · cases noiseFlag
    · simp only [pipelineRows, make_synthetic_data, Bool.false_eq_true, if_false, to_csv,
        out_dat, dpredList]
      simp only [List.length_map, List.length_zip]
    · simp only [pipelineRows, make_synthetic_data, if_true, to_csv, out_dat, dpredList,
        Bool.false_eq_true, if_false]
      simp only [List.length_map, List.length_zip, perturbFrom_length]
      omega
  · intro i
    cases noiseFlag
    · simp only [pipelineRows, make_synthetic_data, Bool.false_eq_true, if_false, to_csv,
        out_dat, dpredList]
      rw [List.getElem?_map, getElem?_zipPair, getElem?_zipPair, List.getElem?_map]
      cases hab : ab[i]? <;> cases hmn : mn[i]? <;> cases hc : configs[i]? <;>
        simp [hab, hmn, hc]
    · simp only [pipelineRows, make_synthetic_data, if_true, to_csv, out_dat, dpredList,
        Bool.false_eq_true, if_false]
      rw [List.getElem?_map, getElem?_zipPair, List.getElem?_map, getElem?_zipPair,
        getElem?_zipPair, getElem?_perturbFrom_zero, List.getElem?_map, List.getElem?_map]
      cases hab : ab[i]? <;> cases hmn : mn[i]? <;> cases hc : configs[i]? <;>
        simp [hab, hmn, hc]
